import Mathlib

/-!
Verification of the cretonne/cranelift IR structural verifier
(`src/lib/cretonne/src/verifier.rs`) and the global-value legalization pass
(`src/lib/codegen/src/legalizer/globalvalue.rs`) against their
natural-language specification.

The data-flow graph, layout, instruction and opcode definitions are not part
of the provided sources (only the `ir/mod.rs` module index is), so those data
types are modelled from the spec (sections 3 and 4 of spec.md); the verifier
and legalizer functions themselves are translated line by line from the Rust
sources.
-/

/-- Decidable equality of verifier results, so that concrete runs can be
settled by `decide`. -/
instance {ε α : Type} [DecidableEq ε] [DecidableEq α] :
    DecidableEq (Except ε α) := fun a b =>
  match a, b with
  | .ok x, .ok y =>
    if h : x = y then .isTrue (by rw [h]) else .isFalse (by simp [h])
  | .error x, .error y =>
    if h : x = y then .isTrue (by rw [h]) else .isFalse (by simp [h])
  | .ok _, .error _ => .isFalse (by simp)
  | .error _, .ok _ => .isFalse (by simp)

namespace Cton

/-- Modelled from the spec: entity handles are small integers (§3.1). -/
abbrev Ebb := Nat
/-- Modelled from the spec: instruction handle. -/
abbrev Inst := Nat
/-- Modelled from the spec: SSA value handle. -/
abbrev Value := Nat
/-- Modelled from the spec: signature reference handle. -/
abbrev SigRef := Nat
/-- Modelled from the spec: external function reference handle. -/
abbrev FuncRef := Nat
/-- Modelled from the spec: jump table handle. -/
abbrev JumpTable := Nat
/-- Modelled from the spec: IR types are an opaque enumeration; only the
distinguished `VOID` type matters to the verifier. -/
abbrev Ty := Nat

/-- Modelled from the spec: the distinguished `VOID` type (`types::VOID`). -/
def VOID : Ty := 0

/-- Modelled from the spec: the closed enumeration of instruction formats
matched by the verifier (§3.2 and the exhaustive match in
`verify_entity_references`). -/
inductive InstructionFormat where
  | Nullary | Unary | UnaryImm | UnaryIeee32 | UnaryIeee64 | UnarySplit
  | Binary | BinaryImm | BinaryOverflow | Ternary | MultiAry
  | Jump | Branch | BranchTable | Call | IndirectCall
  | InsertLane | ExtractLane | IntCompare | FloatCompare
  deriving DecidableEq, Repr

/-- Modelled from the spec: an opcode determines its format, whether it is a
terminator, and its fixed result count (§3.2: "an opcode ... determines its
format, its constraints (fixed result count, ..., whether it is a
terminator)").  The opcode enumeration itself is not in the provided sources,
so an opcode is modelled by exactly the attributes the verifier reads. -/
structure Opcode where
  format : InstructionFormat
  is_terminator : Bool
  fixed_results : Nat
  deriving DecidableEq, Repr

/-- Modelled from the spec: a `ValueList` is a compact (offset, length)
handle into a single shared value pool (§3.3). -/
structure ValueList where
  offset : Nat
  length : Nat
  deriving DecidableEq, Repr

/-- Modelled from the spec: a `ValueList` is valid iff its (offset, length)
falls within the pool's current extent (§3.3). -/
def ValueList.is_valid (l : ValueList) (pool : List Value) : Bool :=
  decide (l.offset + l.length ≤ pool.length)

/-- Modelled from the spec: the values denoted by a `ValueList` are the
corresponding slice of the shared pool (§3.3). -/
def ValueList.values (l : ValueList) (pool : List Value) : List Value :=
  (pool.drop l.offset).take l.length

/-- Modelled from the spec: format-specific instruction payload (§3.2).
Each variant carries its opcode, the controlling type `ty` (the first-type
field), its fixed value operands, and its entity references.  Condition codes
and immediates are opaque to the verifier and modelled as integers. -/
inductive InstructionData where
  | Nullary (opcode : Opcode) (ty : Ty)
  | Unary (opcode : Opcode) (ty : Ty) (arg : Value)
  | UnaryImm (opcode : Opcode) (ty : Ty) (imm : Int)
  | UnaryIeee32 (opcode : Opcode) (ty : Ty) (imm : Nat)
  | UnaryIeee64 (opcode : Opcode) (ty : Ty) (imm : Nat)
  | UnarySplit (opcode : Opcode) (ty : Ty) (arg : Value)
  | Binary (opcode : Opcode) (ty : Ty) (arg0 arg1 : Value)
  | BinaryImm (opcode : Opcode) (ty : Ty) (arg : Value) (imm : Int)
  | BinaryOverflow (opcode : Opcode) (ty : Ty) (arg0 arg1 : Value)
  | Ternary (opcode : Opcode) (ty : Ty) (arg0 arg1 arg2 : Value)
  | MultiAry (opcode : Opcode) (ty : Ty) (args : ValueList)
  | Jump (opcode : Opcode) (ty : Ty) (destination : Ebb) (args : ValueList)
  | Branch (opcode : Opcode) (ty : Ty) (arg : Value) (destination : Ebb)
      (args : ValueList)
  | BranchTable (opcode : Opcode) (ty : Ty) (arg : Value) (table : JumpTable)
  | Call (opcode : Opcode) (ty : Ty) (func_ref : FuncRef) (args : ValueList)
  | IndirectCall (opcode : Opcode) (ty : Ty) (sig_ref : SigRef)
      (args : ValueList)
  | InsertLane (opcode : Opcode) (ty : Ty) (arg0 : Value) (lane : Nat)
      (arg1 : Value)
  | ExtractLane (opcode : Opcode) (ty : Ty) (arg : Value) (lane : Nat)
  | IntCompare (opcode : Opcode) (ty : Ty) (cond : Nat) (arg0 arg1 : Value)
  | FloatCompare (opcode : Opcode) (ty : Ty) (cond : Nat) (arg0 arg1 : Value)
  deriving DecidableEq, Repr

namespace InstructionData

/-- The opcode stored in the payload. -/
def opcode : InstructionData → Opcode
  | Nullary op _ | Unary op _ _ | UnaryImm op _ _ | UnaryIeee32 op _ _
  | UnaryIeee64 op _ _ | UnarySplit op _ _ | Binary op _ _ _
  | BinaryImm op _ _ _ | BinaryOverflow op _ _ _ | Ternary op _ _ _ _
  | MultiAry op _ _ | Jump op _ _ _ | Branch op _ _ _ _
  | BranchTable op _ _ _ | Call op _ _ _ | IndirectCall op _ _ _
  | InsertLane op _ _ _ _ | ExtractLane op _ _ _
  | IntCompare op _ _ _ _ | FloatCompare op _ _ _ _ => op

/-- The structural format of the payload: the embedding of
`InstructionFormat::from(inst_data)`. -/
def format : InstructionData → InstructionFormat
  | Nullary .. => .Nullary
  | Unary .. => .Unary
  | UnaryImm .. => .UnaryImm
  | UnaryIeee32 .. => .UnaryIeee32
  | UnaryIeee64 .. => .UnaryIeee64
  | UnarySplit .. => .UnarySplit
  | Binary .. => .Binary
  | BinaryImm .. => .BinaryImm
  | BinaryOverflow .. => .BinaryOverflow
  | Ternary .. => .Ternary
  | MultiAry .. => .MultiAry
  | Jump .. => .Jump
  | Branch .. => .Branch
  | BranchTable .. => .BranchTable
  | Call .. => .Call
  | IndirectCall .. => .IndirectCall
  | InsertLane .. => .InsertLane
  | ExtractLane .. => .ExtractLane
  | IntCompare .. => .IntCompare
  | FloatCompare .. => .FloatCompare

/-- Modelled from the spec: the first-type field of the payload (§3.2, I3). -/
def first_type : InstructionData → Ty
  | Nullary _ ty | Unary _ ty _ | UnaryImm _ ty _ | UnaryIeee32 _ ty _
  | UnaryIeee64 _ ty _ | UnarySplit _ ty _ | Binary _ ty _ _
  | BinaryImm _ ty _ _ | BinaryOverflow _ ty _ _ | Ternary _ ty _ _ _
  | MultiAry _ ty _ | Jump _ ty _ _ | Branch _ ty _ _ _
  | BranchTable _ ty _ _ | Call _ ty _ _ | IndirectCall _ ty _ _
  | InsertLane _ ty _ _ _ | ExtractLane _ ty _ _
  | IntCompare _ ty _ _ _ | FloatCompare _ ty _ _ _ => ty

/-- Modelled from the spec: the value arguments of an instruction — its fixed
value operands followed by the contents of its value list resolved through
the shared pool (the `arguments(&value_lists)` iterator). -/
def arguments (data : InstructionData) (pool : List Value) : List Value :=
  match data with
  | Nullary .. | UnaryImm .. | UnaryIeee32 .. | UnaryIeee64 .. => []
  | Unary _ _ a | UnarySplit _ _ a | BinaryImm _ _ a _
  | ExtractLane _ _ a _ => [a]
  | Binary _ _ a b | BinaryOverflow _ _ a b | IntCompare _ _ _ a b
  | FloatCompare _ _ _ a b | InsertLane _ _ a _ b => [a, b]
  | Ternary _ _ a b c => [a, b, c]
  | MultiAry _ _ l | Jump _ _ _ l | Call _ _ _ l
  | IndirectCall _ _ _ l => l.values pool
  | Branch _ _ a _ l => a :: l.values pool
  | BranchTable _ _ a _ => [a]

end InstructionData

/-- Modelled from the spec: the definition site of a value (§3.1, §4.B):
an EBB argument, an instruction result, or an alias of another value. -/
inductive ValueDef where
  | Arg (ebb : Ebb) (idx : Nat)
  | Result (inst : Inst) (idx : Nat)
  | Alias (original : Value)
  deriving DecidableEq, Repr

/-- Modelled from the spec: a function signature; the verifier reads only the
return-type list (§4.E.2 check 6). -/
structure Signature where
  arg_types : List Ty
  return_types : List Ty
  deriving DecidableEq, Repr

/-- The empty signature, used as the out-of-range default when indexing the
signature arena. -/
def Signature.empty : Signature := ⟨[], []⟩

/-- Modelled from the spec: the Layout (§3.5, §4.C) — the order of EBBs in
the function, the program order of instructions within each EBB, and the
per-instruction containing-EBB map. -/
structure Layout where
  ebbs : List Ebb
  ebb_insts : Ebb → List Inst
  inst_ebb : Inst → Option Ebb

/-- Modelled from the spec: `layout.last_inst(ebb)` — the last instruction of
an EBB in program order, if any (§3.5). -/
def Layout.last_inst (l : Layout) (ebb : Ebb) : Option Inst :=
  (l.ebb_insts ebb).getLast?

/-- Modelled from the spec: the parts of a `Function` (DFG, Layout and side
arenas) that the structural verifier reads (§4.D).  Primary maps are lists
indexed by the handle; validity of a handle is being in range. -/
structure Function where
  layout : Layout
  /-- `func.dfg[inst]`: the payload of each instruction. -/
  dfg_data : Inst → InstructionData
  /-- `dfg.inst_results(inst)`: result values in declaration order. -/
  inst_results : Inst → List Value
  /-- `dfg.ebb_args(ebb)`: formal arguments of an EBB. -/
  ebb_args : Ebb → List Value
  /-- `dfg.value_def(v)`. -/
  value_def : Value → ValueDef
  /-- `dfg.signatures`: the signature arena. -/
  signatures : List Signature
  /-- `dfg.ext_funcs`: the signature reference of each external function. -/
  ext_funcs : List SigRef
  /-- `dfg.value_lists`: the shared value pool. -/
  value_pool : List Value
  /-- Number of values allocated by the DFG (`value_is_valid`). -/
  value_count : Nat
  /-- Number of EBBs allocated by the DFG (`ebb_is_valid`). -/
  ebb_count : Nat
  /-- Number of jump tables in the function's arena. -/
  jump_table_count : Nat

/-- Modelled from the spec: `dfg.value_is_valid`. -/
def Function.value_is_valid (f : Function) (v : Value) : Bool :=
  decide (v < f.value_count)

/-- Modelled from the spec: `dfg.ebb_is_valid`. -/
def Function.ebb_is_valid (f : Function) (e : Ebb) : Bool :=
  decide (e < f.ebb_count)

/-- Modelled from the spec: `dfg.call_signature(inst)` — the signature
reference of a call-like instruction: for a direct call, the signature
recorded for its external function; for an indirect call, its payload's
signature reference; `none` otherwise (§4.B). -/
def Function.call_signature (f : Function) (inst : Inst) : Option SigRef :=
  match f.dfg_data inst with
  | .Call _ _ func_ref _ => f.ext_funcs.get? func_ref
  | .IndirectCall _ _ sig_ref _ => some sig_ref
  | _ => none

/-- The sum of every handle kind, used as an error location
(`AnyEntity` in `ir/entities.rs`). -/
inductive AnyEntity where
  | function
  | ebb (e : Ebb)
  | inst (i : Inst)
  | value (v : Value)
  | stackSlot (s : Nat)
  | jumpTable (j : JumpTable)
  deriving DecidableEq, Repr

/-- A verifier error: the entity causing it and a message (verifier.rs). -/
structure Error where
  location : AnyEntity
  message : String
  deriving DecidableEq, Repr

/-- `m` contains `sub` as a substring. -/
def msgContains (m sub : String) : Prop := ∃ a b, m = a ++ sub ++ b

/-- Textual form of an EBB handle, as `Display for Ebb` prints it. -/
def ebbName (e : Ebb) : String := "ebb" ++ toString e

/-- Textual form of an `Option<Ebb>`, as the `{:?}` debug format prints it. -/
def optEbbName : Option Ebb → String
  | none => "None"
  | some e => "Some(" ++ ebbName e ++ ")"

/-- Textual form of a type, standing in for `Display for Type`. -/
def tyName (t : Ty) : String := "types" ++ toString t

/-- Message of the terminator-placement error (verifier.rs line 118). -/
def term_before_end_msg (ebb : Ebb) : String :=
  "a terminator instruction was encountered before the end of " ++ ebbName ebb

/-- Message of the EBB-closure error (verifier.rs line 123). -/
def no_terminator_msg : String :=
  "block does not end in a terminator instruction!"

/-- Message of the containment error (verifier.rs line 129). -/
def belongs_msg (ebb : Ebb) (ie : Option Ebb) : String :=
  "should belong to " ++ ebbName ebb ++ " not " ++ optEbbName ie

/-- Message of the argument-origin error for a misattributed argument
(verifier.rs line 137). -/
def arg_wrong_ebb_msg (ebb : Ebb) : String :=
  "does not belong to " ++ ebbName ebb

/-- Message of the argument-origin error for a non-argument value
(verifier.rs line 141). -/
def arg_not_arg_msg : String := "expected an argument, found a result"

/-- Message of the format-mismatch error (verifier.rs line 155). -/
def bad_format_msg : String :=
  "instruction opcode doesn't match instruction format"

/-- Message of the missing-VOID error (verifier.rs line 168). -/
def null_return_msg (t : Ty) : String :=
  "instruction expected to have NULL return value, found " ++ tyName t

/-- Message of the result-count error (verifier.rs line 177). -/
def result_count_msg (want got : Nat) : String :=
  "expected " ++ toString want ++ " result values, found " ++ toString got

/-- `Verifier::ebb_integrity` (verifier.rs lines 111-147), with the argument
loop expressed as `check_ebb_args` below. -/
def check_ebb_args (f : Function) (ebb : Ebb) : List Value → Except Error Unit
  | [] => .ok ()
  | arg :: rest =>
    match f.value_def arg with
    | .Arg arg_ebb _ =>
      if ebb ≠ arg_ebb then .error ⟨.value arg, arg_wrong_ebb_msg ebb⟩
      else check_ebb_args f ebb rest
    | _ => .error ⟨.value arg, arg_not_arg_msg⟩

/-- `Verifier::ebb_integrity` (verifier.rs lines 111-147): terminator
placement, EBB closure, containment, argument origin, with early return. -/
def ebb_integrity (f : Function) (ebb : Ebb) (inst : Inst) :
    Except Error Unit :=
  let is_terminator := ((f.dfg_data inst).opcode.is_terminator = true)
  let is_last_inst := (f.layout.last_inst ebb = some inst)
  if is_terminator ∧ ¬ is_last_inst then
    .error ⟨.inst inst, term_before_end_msg ebb⟩
  else if is_last_inst ∧ ¬ is_terminator then
    .error ⟨.ebb ebb, no_terminator_msg⟩
  else
    let inst_ebb := f.layout.inst_ebb inst
    if inst_ebb ≠ some ebb then
      .error ⟨.inst inst, belongs_msg ebb inst_ebb⟩
    else
      check_ebb_args f ebb (f.ebb_args ebb)

/-- `Verifier::verify_value` (verifier.rs lines 286-292). -/
def verify_value (f : Function) (inst : Inst) (v : Value) :
    Except Error Unit :=
  if f.value_is_valid v then .ok ()
  else .error ⟨.inst inst, "invalid value reference v" ++ toString v⟩

/-- `Verifier::verify_ebb` (verifier.rs lines 240-246). -/
def verify_ebb (f : Function) (inst : Inst) (e : Ebb) : Except Error Unit :=
  if f.ebb_is_valid e then .ok ()
  else .error ⟨.inst inst, "invalid ebb reference " ++ ebbName e⟩

/-- `Verifier::verify_sig_ref` (verifier.rs lines 248-257). -/
def verify_sig_ref (f : Function) (inst : Inst) (s : SigRef) :
    Except Error Unit :=
  if s < f.signatures.length then .ok ()
  else .error ⟨.inst inst, "invalid signature reference sig" ++ toString s⟩

/-- `Verifier::verify_func_ref` (verifier.rs lines 259-268). -/
def verify_func_ref (f : Function) (inst : Inst) (fr : FuncRef) :
    Except Error Unit :=
  if fr < f.ext_funcs.length then .ok ()
  else .error ⟨.inst inst, "invalid function reference fn" ++ toString fr⟩

/-- `Verifier::verify_value_list` (verifier.rs lines 270-276). -/
def verify_value_list (f : Function) (inst : Inst) (l : ValueList) :
    Except Error Unit :=
  if l.is_valid f.value_pool then .ok ()
  else .error ⟨.inst inst, "invalid value list reference"⟩

/-- `Verifier::verify_jump_table` (verifier.rs lines 278-284). -/
def verify_jump_table (f : Function) (inst : Inst) (j : JumpTable) :
    Except Error Unit :=
  if j < f.jump_table_count then .ok ()
  else .error ⟨.inst inst, "invalid jump table reference jt" ++ toString j⟩

/-- The two value loops of `verify_entity_references` (verifier.rs lines
189-195): verify each value of a list in order, with early return. -/
def verify_values (f : Function) (inst : Inst) :
    List Value → Except Error Unit
  | [] => .ok ()
  | v :: rest => do
    verify_value f inst v
    verify_values f inst rest

/-- The payload dispatch of `verify_entity_references` (verifier.rs lines
197-235): the entity references specific to each instruction format. -/
def verify_payload_refs (f : Function) (inst : Inst) : Except Error Unit :=
  match f.dfg_data inst with
  | .MultiAry _ _ args => verify_value_list f inst args
  | .Jump _ _ destination args => do
    verify_ebb f inst destination
    verify_value_list f inst args
  | .Branch _ _ _ destination args => do
    verify_ebb f inst destination
    verify_value_list f inst args
  | .BranchTable _ _ _ table => verify_jump_table f inst table
  | .Call _ _ func_ref args => do
    verify_func_ref f inst func_ref
    verify_value_list f inst args
  | .IndirectCall _ _ sig_ref args => do
    verify_sig_ref f inst sig_ref
    verify_value_list f inst args
  | _ => .ok ()

/-- `Verifier::verify_entity_references` (verifier.rs lines 186-238):
arguments, then results, then the payload-specific entity references. -/
def verify_entity_references (f : Function) (inst : Inst) :
    Except Error Unit := do
  verify_values f inst ((f.dfg_data inst).arguments f.value_pool)
  verify_values f inst (f.inst_results inst)
  verify_payload_refs f inst

/-- The number of variable results of an instruction (verifier.rs lines
160-161): the length of the return-type list of the call signature, or 0. -/
def var_results (f : Function) (inst : Inst) : Nat :=
  ((f.call_signature inst).map
    (fun s => (f.signatures.getD s Signature.empty).return_types.length)).getD 0

/-- The total expected result count of an instruction (verifier.rs line
162): fixed results plus variable results. -/
def total_results (f : Function) (inst : Inst) : Nat :=
  (f.dfg_data inst).opcode.fixed_results + var_results f inst

/-- `Verifier::instruction_integrity` (verifier.rs lines 149-184): format
match, result count, then entity references, with early return. -/
def instruction_integrity (f : Function) (inst : Inst) : Except Error Unit :=
  let inst_data := f.dfg_data inst
  if inst_data.opcode.format ≠ inst_data.format then
    .error ⟨.inst inst, bad_format_msg⟩
  else if total_results f inst = 0 then
    if inst_data.first_type ≠ VOID then
      .error ⟨.inst inst, null_return_msg inst_data.first_type⟩
    else
      verify_entity_references f inst
  else
    let got_results := (f.inst_results inst).length
    if got_results ≠ total_results f inst then
      .error ⟨.inst inst, result_count_msg (total_results f inst) got_results⟩
    else
      verify_entity_references f inst

/-- The inner loop of `Verifier::run` (verifier.rs lines 296-299): check the
instructions of one EBB in program order. -/
def run_insts (f : Function) (ebb : Ebb) : List Inst → Except Error Unit
  | [] => .ok ()
  | inst :: rest => do
    ebb_integrity f ebb inst
    instruction_integrity f inst
    run_insts f ebb rest

/-- The outer loop of `Verifier::run` (verifier.rs lines 295-300): check the
EBBs in layout order. -/
def run_ebbs (f : Function) : List Ebb → Except Error Unit
  | [] => .ok ()
  | ebb :: rest => do
    run_insts f ebb (f.layout.ebb_insts ebb)
    run_ebbs f rest

/-- `Verifier::run` (verifier.rs lines 294-302). -/
def run (f : Function) : Except Error Unit := run_ebbs f f.layout.ebbs

/-- `verify_function` (verifier.rs lines 98-100). -/
def verify_function (f : Function) : Except Error Unit := run f

/-! ### Spec-side decomposition of the verifier into an ordered check list

The spec describes the verifier as a sequence of independent checks run in a
fixed encounter order, returning the first failure.  Each check below is an
`Option Error` computed unconditionally, following the spec's wording; the
claim C1 relates the translated `verify_function` to the first `some` of the
ordered list of all checks. -/

/-- Turn an optional error into the verifier's result type. -/
def errExcept : Option Error → Except Error Unit
  | none => .ok ()
  | some e => .error e

/-- The first `some` element of a list of optional errors. -/
def firstSome : List (Option Error) → Option Error
  | [] => none
  | some e :: _ => some e
  | none :: rest => firstSome rest

/-- Spec check 1 (terminator placement, §4.E.1): a terminator that is not the
last instruction of its EBB is an error at the instruction. -/
def terminator_placement_check (f : Function) (ebb : Ebb) (inst : Inst) :
    Option Error :=
  if (f.dfg_data inst).opcode.is_terminator = true ∧
      ¬ f.layout.last_inst ebb = some inst then
    some ⟨.inst inst, term_before_end_msg ebb⟩
  else none

/-- Spec check 2 (EBB closure, §4.E.1): a last instruction that is not a
terminator is an error at the EBB. -/
def ebb_closure_check (f : Function) (ebb : Ebb) (inst : Inst) :
    Option Error :=
  if f.layout.last_inst ebb = some inst ∧
      ¬ (f.dfg_data inst).opcode.is_terminator = true then
    some ⟨.ebb ebb, no_terminator_msg⟩
  else none

/-- Spec check 3 (containment, §4.E.1): `layout.inst_ebb(I)` must be the EBB
being traversed. -/
def containment_check (f : Function) (ebb : Ebb) (inst : Inst) :
    Option Error :=
  if ¬ f.layout.inst_ebb inst = some ebb then
    some ⟨.inst inst, belongs_msg ebb (f.layout.inst_ebb inst)⟩
  else none

/-- Spec check 4, one formal argument (argument origin, §4.E.1): the value
must be defined as an argument of this EBB. -/
def arg_origin_one (f : Function) (ebb : Ebb) (arg : Value) : Option Error :=
  match f.value_def arg with
  | .Arg arg_ebb _ =>
    if ebb ≠ arg_ebb then some ⟨.value arg, arg_wrong_ebb_msg ebb⟩ else none
  | _ => some ⟨.value arg, arg_not_arg_msg⟩

/-- Spec check 4 (argument origin, §4.E.1): first failure over the formal
arguments of the EBB in order. -/
def argument_origin_check (f : Function) (ebb : Ebb) : Option Error :=
  firstSome ((f.ebb_args ebb).map (arg_origin_one f ebb))

/-- Spec check 5 (format matches opcode, §4.E.2). -/
def format_check (f : Function) (inst : Inst) : Option Error :=
  if (f.dfg_data inst).opcode.format ≠ (f.dfg_data inst).format then
    some ⟨.inst inst, bad_format_msg⟩
  else none

/-- Spec check 6 (result count, §4.E.2): zero expected results require a VOID
first type; a positive count must equal the number of materialised results. -/
def result_count_check (f : Function) (inst : Inst) : Option Error :=
  if total_results f inst = 0 then
    if (f.dfg_data inst).first_type ≠ VOID then
      some ⟨.inst inst, null_return_msg (f.dfg_data inst).first_type⟩
    else none
  else
    if (f.inst_results inst).length ≠ total_results f inst then
      some ⟨.inst inst,
        result_count_msg (total_results f inst) (f.inst_results inst).length⟩
    else none

/-- One value-validity check (spec check 7, §4.E.2). -/
def value_check (f : Function) (inst : Inst) (v : Value) : Option Error :=
  if f.value_is_valid v then none
  else some ⟨.inst inst, "invalid value reference v" ++ toString v⟩

/-- The payload-specific entity-reference checks of spec check 7, in the
order of the source's dispatch. -/
def payload_ref_checks (f : Function) (inst : Inst) : List (Option Error) :=
  let ebb_check := fun (e : Ebb) =>
    if f.ebb_is_valid e then (none : Option Error)
    else some ⟨.inst inst, "invalid ebb reference " ++ ebbName e⟩
  let list_check := fun (l : ValueList) =>
    if l.is_valid f.value_pool then (none : Option Error)
    else some ⟨.inst inst, "invalid value list reference"⟩
  match f.dfg_data inst with
  | .MultiAry _ _ args => [list_check args]
  | .Jump _ _ destination args => [ebb_check destination, list_check args]
  | .Branch _ _ _ destination args => [ebb_check destination, list_check args]
  | .BranchTable _ _ _ table =>
    [if table < f.jump_table_count then none
     else some ⟨.inst inst, "invalid jump table reference jt" ++ toString table⟩]
  | .Call _ _ func_ref args =>
    [(if func_ref < f.ext_funcs.length then none
      else some ⟨.inst inst, "invalid function reference fn" ++ toString func_ref⟩),
     list_check args]
  | .IndirectCall _ _ sig_ref args =>
    [(if sig_ref < f.signatures.length then none
      else some ⟨.inst inst, "invalid signature reference sig" ++ toString sig_ref⟩),
     list_check args]
  | _ => []

/-- Spec check 7 (entity references, §4.E.2): arguments, then results, then
payload-specific references, first failure. -/
def entity_reference_check (f : Function) (inst : Inst) : Option Error :=
  firstSome
    (((f.dfg_data inst).arguments f.value_pool).map (value_check f inst) ++
     (f.inst_results inst).map (value_check f inst) ++
     payload_ref_checks f inst)

/-- The seven checks for one (EBB, instruction) pair in the spec's order:
the four ebb-integrity checks then the three instruction-integrity checks. -/
def ebb_inst_checks (f : Function) (ebb : Ebb) (inst : Inst) :
    List (Option Error) :=
  [terminator_placement_check f ebb inst,
   ebb_closure_check f ebb inst,
   containment_check f ebb inst,
   argument_origin_check f ebb,
   format_check f inst,
   result_count_check f inst,
   entity_reference_check f inst]

/-- All checks of the verifier in encounter order: EBBs in layout order,
instructions in program order, then the seven per-pair checks. -/
def checkList (f : Function) : List (Option Error) :=
  f.layout.ebbs.flatMap fun ebb =>
    (f.layout.ebb_insts ebb).flatMap fun inst =>
      ebb_inst_checks f ebb inst

/-- Property P1 of the spec (§8): every EBB yielded by `layout.ebbs()`
contains exactly one terminator instruction and it is `last_inst(E)`. -/
def P1 (f : Function) : Prop :=
  ∀ ebb ∈ f.layout.ebbs,
    (f.layout.ebb_insts ebb).countP
        (fun i => (f.dfg_data i).opcode.is_terminator) = 1 ∧
    ∃ i, f.layout.last_inst ebb = some i ∧
      (f.dfg_data i).opcode.is_terminator = true

/-! ### Concrete example functions (used as witnesses) -/

/-- A placeholder non-terminator opcode of format Nullary. -/
def nullary_op : Opcode := ⟨.Nullary, false, 0⟩

/-- The `jump` opcode: format Jump, a terminator, no fixed results. -/
def jump_op : Opcode := ⟨.Jump, true, 0⟩

/-- The `return` opcode: format MultiAry, a terminator, no fixed results. -/
def return_op : Opcode := ⟨.MultiAry, true, 0⟩

/-- The `iconst` opcode: format UnaryImm, not a terminator, one result. -/
def iconst_op : Opcode := ⟨.UnaryImm, false, 1⟩

/-- A unary single-result opcode. -/
def unary_op : Opcode := ⟨.Unary, false, 1⟩

/-- A function with nothing in it: no EBBs, no instructions. -/
def base_func : Function where
  layout := ⟨[], fun _ => [], fun _ => none⟩
  dfg_data := fun _ => .Nullary nullary_op VOID
  inst_results := fun _ => []
  ebb_args := fun _ => []
  value_def := fun _ => .Result 0 0
  signatures := []
  ext_funcs := []
  value_pool := []
  value_count := 0
  ebb_count := 0
  jump_table_count := 0

/-- A function whose layout holds one EBB with no instructions at all. -/
def empty_ebb_func : Function :=
  { base_func with
      layout := ⟨[0], fun _ => [], fun _ => none⟩
      ebb_count := 1 }

/-- The function of the `bad_instruction_format` test (verifier.rs lines
332-344): one EBB whose single instruction is a Nullary payload carrying the
`jump` opcode. -/
def bad_format_func : Function :=
  { base_func with
      layout := ⟨[0], fun e => if e = 0 then [0] else [],
                 fun i => if i = 0 then some 0 else none⟩
      dfg_data := fun _ => .Nullary jump_op VOID
      ebb_count := 1 }

/-- A function with one EBB holding `[return, iconst]`: a terminator before
the end of the EBB, and a non-terminator in the last slot. -/
def misplaced_term_func : Function :=
  { base_func with
      layout := ⟨[0], fun e => if e = 0 then [0, 1] else [],
                 fun i => if i ≤ 1 then some 0 else none⟩
      dfg_data := fun i =>
        if i = 0 then .MultiAry return_op VOID ⟨0, 0⟩
        else .UnaryImm iconst_op 1 5
      inst_results := fun i => if i = 0 then [] else [0]
      value_count := 1
      ebb_count := 1 }

/-- A function that passes the verifier: one EBB ending in a `return`. -/
def good_func : Function :=
  { base_func with
      layout := ⟨[0], fun e => if e = 0 then [0] else [],
                 fun i => if i = 0 then some 0 else none⟩
      dfg_data := fun _ => .MultiAry return_op VOID ⟨0, 0⟩
      ebb_count := 1 }

/-- A function used for the result-count witness: instruction 0 is a Nullary
with a non-VOID first type, instruction 1 a Unary with no materialised
results, instruction 2 a well-formed Nullary. -/
def count_func : Function :=
  { base_func with
      dfg_data := fun i =>
        if i = 0 then .Nullary nullary_op 1
        else if i = 1 then .Unary unary_op 1 0
        else .Nullary nullary_op VOID
      value_count := 1 }

/-- `good_func` with garbage instruction data at an instruction that is not
placed in the layout (the verifier must never look at it). -/
def good_func_with_orphan : Function :=
  { good_func with
      dfg_data := fun i =>
        if i = 0 then .MultiAry return_op VOID ⟨0, 0⟩
        else .Nullary jump_op 7 }

end Cton

namespace GV

/-!
Embedding of the global-value legalization pass
(`src/lib/codegen/src/legalizer/globalvalue.rs`).  The `Function`, DFG,
Layout and cursor operations this pass uses are not in the provided sources,
so they are modelled from the spec (§4.B, §4.C, §4.D); `expand_global_value`
and its four helpers are translated from the Rust source.  Aborts
(`panic!` / `.expect`) are modelled as the `Except.error` branch carrying a
`Panic` value; the source-location bookkeeping of `use_srcloc` is an opaque
token outside this spec and is not modelled.
-/

/-- Modelled from the spec: instruction handle. -/
abbrev Inst := Nat
/-- Modelled from the spec: SSA value handle. -/
abbrev Value := Nat
/-- Modelled from the spec: global value handle. -/
abbrev GlobalValue := Nat
/-- Modelled from the spec: extended basic block handle. -/
abbrev Ebb := Nat
/-- Modelled from the spec: IR type (opaque to this pass except for
`isa.pointer_type()`). -/
abbrev Ty := Nat

/-- Update a handle-indexed map at one key. -/
def updFn {β : Type} (f : Nat → β) (k : Nat) (v : β) : Nat → β :=
  fun x => if x = k then v else f x

/-- The opcodes this pass reads or writes. -/
inductive Opcode where
  | GlobalValueOp | IaddImm | LoadOp | SymbolValue
  deriving DecidableEq, Repr

/-- Modelled from the spec: memory flags; the pass sets *notrap* and
*aligned* (§3.6). -/
structure MemFlags where
  notrap : Bool
  aligned : Bool
  deriving DecidableEq, Repr

/-- `MemFlags::new()`: no flags set. -/
def MemFlags.new : MemFlags := ⟨false, false⟩

/-- `MemFlags::set_notrap()`. -/
def MemFlags.set_notrap (m : MemFlags) : MemFlags := { m with notrap := true }

/-- `MemFlags::set_aligned()`. -/
def MemFlags.set_aligned (m : MemFlags) : MemFlags := { m with aligned := true }

/-- Modelled from the spec: the instruction payloads this pass reads or
builds.  `UnaryGlobalValue` is the format of `global_value` and
`symbol_value` instructions; `BinaryImm` of `iadd_imm`; `Load` of `load`.
The controlling type `ty` is carried where the pass's builders supply one. -/
inductive InstructionData where
  | UnaryGlobalValue (opcode : Opcode) (ty : Ty) (global_value : GlobalValue)
  | BinaryImm (opcode : Opcode) (arg : Value) (imm : Int)
  | Load (opcode : Opcode) (flags : MemFlags) (ty : Ty) (arg : Value)
      (offset : Int)
  deriving DecidableEq, Repr

/-- Is this payload a `global_value` instruction? -/
def InstructionData.is_global_value : InstructionData → Bool
  | .UnaryGlobalValue .GlobalValueOp _ _ => true
  | _ => false

/-- Is this payload of the `UnaryGlobalValue` format (the format matched by
`expand_global_value`'s unpacking step)? -/
def InstructionData.is_unary_global_value : InstructionData → Bool
  | .UnaryGlobalValue .. => true
  | _ => false

/-- `GlobalValueData` (§3.6): the four kinds of global value. -/
inductive GlobalValueData where
  | VMContext
  | IAddImm (base : GlobalValue) (offset : Int) (global_type : Ty)
  | Load (base : GlobalValue) (offset : Int) (global_type : Ty)
  | Symbol (name : Nat)
  deriving DecidableEq, Repr

/-- Modelled from the spec: the target ISA supplies the pointer type (§6). -/
structure TargetIsa where
  pointer_type : Ty
  deriving DecidableEq, Repr

/-- Modelled from the spec: the parts of a `Function` this pass reads and
mutates (§4.B-§4.D).  The layout is the association list of EBBs to their
instruction sequences in program order; `special_vmctx` is
`special_param(ArgumentPurpose::VMContext)`; `next_inst` / `next_value` are
the next fresh handles the DFG arenas will allocate. -/
structure Function where
  global_values : List GlobalValueData
  inst_data : Inst → InstructionData
  inst_results : Inst → List Value
  layout : List (Ebb × List Inst)
  value_aliases : Value → Option Value
  special_vmctx : Option Value
  next_inst : Inst
  next_value : Value

/-- `dfg.first_result(inst)`, when the instruction has results. -/
def Function.first_result (f : Function) (inst : Inst) : Option Value :=
  (f.inst_results inst).head?

/-- `layout.inst_ebb(inst)`: the EBB whose instruction sequence holds the
instruction. -/
def Function.inst_ebb (f : Function) (inst : Inst) : Option Ebb :=
  (f.layout.find? fun p => p.2.contains inst).map Prod.fst

/-- The abort conditions of this pass, each carrying its diagnostic data:
`wanted_global_value` is the `panic!("Wanted global_value: {}", ...)` that
prints the offending instruction, `missing_vmctx` the
`.expect("Missing vmctx parameter")`, `missing_result` a `first_result` call
on an instruction without results, and `invalid_global_value` an
out-of-range arena index. -/
inductive Panic where
  | wanted_global_value (inst : Inst) (data : InstructionData)
  | missing_vmctx
  | missing_result (inst : Inst)
  | invalid_global_value (gv : GlobalValue)
  deriving DecidableEq, Repr

/-- Insert `new_inst` directly before the first occurrence of `at_inst`:
the effect of the cursor's `ins()` at position `At(at_inst)` on one EBB's
instruction sequence. -/
def insert_before (l : List Inst) (at_inst new_inst : Inst) : List Inst :=
  match l with
  | [] => []
  | i :: rest =>
    if i = at_inst then new_inst :: i :: rest
    else i :: insert_before rest at_inst new_inst

/-- Modelled from the spec: `pos.ins().global_value(ty, base)` — create a
fresh `global_value` instruction with one fresh result value and insert it
at the cursor's position, i.e. just before `at_inst` (§4.B `make_inst`,
§6 `FuncCursor`). -/
def ins_global_value (f : Function) (at_inst : Inst) (ty : Ty)
    (base : GlobalValue) : Function × Value :=
  let new_inst := f.next_inst
  let new_value := f.next_value
  ({ f with
      inst_data := updFn f.inst_data new_inst
        (.UnaryGlobalValue .GlobalValueOp ty base)
      inst_results := updFn f.inst_results new_inst [new_value]
      layout := f.layout.map fun p => (p.1, insert_before p.2 at_inst new_inst)
      next_inst := new_inst + 1
      next_value := new_value + 1 }, new_value)

/-- Modelled from the spec: `dfg.replace(inst)` followed by a builder —
overwrite the payload in place, reusing the same result values and the same
Layout slot (§4.B "Replacement"). -/
def replace_data (f : Function) (inst : Inst) (d : InstructionData) :
    Function :=
  { f with inst_data := updFn f.inst_data inst d }

/-- `vmctx_addr` (globalvalue.rs lines 47-58): alias the result to the vmctx
parameter, clear the instruction's results, and remove it from the layout. -/
def vmctx_addr (inst : Inst) (func : Function) : Except Panic Function :=
  match func.special_vmctx with
  | none => .error .missing_vmctx
  | some vmctx =>
    match func.first_result inst with
    | none => .error (.missing_result inst)
    | some result =>
      .ok { func with
        inst_results := updFn func.inst_results inst []
        value_aliases := updFn func.value_aliases result (some vmctx)
        layout := func.layout.map fun p => (p.1, p.2.erase inst) }

/-- `iadd_imm_addr` (globalvalue.rs lines 61-82): materialize the base —
the vmctx parameter directly when the base is `VMContext`, otherwise a
freshly inserted `global_value` — then replace the instruction in place with
`iadd_imm(lhs, offset)`. -/
def iadd_imm_addr (inst : Inst) (func : Function) (base : GlobalValue)
    (offset : Int) (global_type : Ty) : Except Panic Function :=
  match func.global_values[base]? with
  | none => .error (.invalid_global_value base)
  | some .VMContext =>
    match func.special_vmctx with
    | none => .error .missing_vmctx
    | some lhs =>
      .ok (replace_data func inst (.BinaryImm .IaddImm lhs offset))
  | some _ =>
    let r := ins_global_value func inst global_type base
    .ok (replace_data r.1 inst (.BinaryImm .IaddImm r.2 offset))

/-- `load_addr` (globalvalue.rs lines 85-120): materialize the base address
like `iadd_imm_addr` (using the ISA pointer type for a fresh intermediate
`global_value`), then replace the instruction in place with a load of
`global_type` whose memory flags are *notrap* and *aligned*. -/
def load_addr (inst : Inst) (func : Function) (base : GlobalValue)
    (offset : Int) (global_type : Ty) (isa : TargetIsa) :
    Except Panic Function :=
  let ptr_ty := isa.pointer_type
  match func.global_values[base]? with
  | none => .error (.invalid_global_value base)
  | some .VMContext =>
    match func.special_vmctx with
    | none => .error .missing_vmctx
    | some base_addr =>
      let mflags := MemFlags.new.set_notrap.set_aligned
      .ok (replace_data func inst
        (.Load .LoadOp mflags global_type base_addr offset))
  | some _ =>
    let r := ins_global_value func inst ptr_ty base
    let mflags := MemFlags.new.set_notrap.set_aligned
    .ok (replace_data r.1 inst
      (.Load .LoadOp mflags global_type r.2 offset))

/-- `symbol` (globalvalue.rs lines 123-126): replace the instruction in
place with `symbol_value(isa.pointer_type(), gv)`. -/
def symbol (inst : Inst) (func : Function) (gv : GlobalValue)
    (isa : TargetIsa) : Except Panic Function :=
  .ok (replace_data func inst
    (.UnaryGlobalValue .SymbolValue isa.pointer_type gv))

/-- `expand_global_value` (globalvalue.rs lines 12-44): unpack the
`global_value` instruction (aborting on any other payload) and dispatch on
the kind of global value it references. -/
def expand_global_value (inst : Inst) (func : Function) (isa : TargetIsa) :
    Except Panic Function :=
  match func.inst_data inst with
  | .UnaryGlobalValue _ _ global_value =>
    match func.global_values[global_value]? with
    | none => .error (.invalid_global_value global_value)
    | some .VMContext => vmctx_addr inst func
    | some (.IAddImm base offset global_type) =>
      iadd_imm_addr inst func base offset global_type
    | some (.Load base offset global_type) =>
      load_addr inst func base offset global_type isa
    | some (.Symbol _) => symbol inst func global_value isa
  | d => .error (.wanted_global_value inst d)

/-! Concrete legalizer inputs used as witnesses. -/

/-- A target with 64-bit pointers: `pointer_type()` is rendered as type 8. -/
def isa64 : TargetIsa := ⟨8⟩

/-- A function holding `gv0 = VMContext`, `gv1 = IAddImm base gv0 offset 16`,
`gv2 = Load base gv0 offset 8`, `gv3 = Load base gv1 offset 4`, with one EBB
whose single `global_value` instruction 0 (result `v1`) is about to be
expanded; the vmctx parameter is `v0`. -/
def gfunc (gv : GlobalValue) : Function where
  global_values := [.VMContext, .IAddImm 0 16 8, .Load 0 8 8, .Load 1 4 8]
  inst_data := fun i =>
    if i = 0 then .UnaryGlobalValue .GlobalValueOp 8 gv
    else .BinaryImm .IaddImm 0 0
  inst_results := fun i => if i = 0 then [1] else []
  layout := [(0, [0])]
  value_aliases := fun _ => none
  special_vmctx := some 0
  next_inst := 1
  next_value := 2

end GV

namespace Cton

/-! ### Equivalence of the translated verifier with the ordered check list -/

theorem except_bind_err (e : Error) (g : Unit → Except Error Unit) :
    (Except.error e >>= g) = Except.error e := rfl

theorem except_bind_ok (g : Unit → Except Error Unit) :
    (Except.ok () >>= g) = g () := rfl

theorem firstSome_singleton (o : Option Error) : firstSome [o] = o := by
  cases o <;> rfl

theorem errExcept_append (l1 l2 : List (Option Error)) :
    errExcept (firstSome (l1 ++ l2)) =
      (errExcept (firstSome l1)) >>= fun _ => errExcept (firstSome l2) := by
  induction l1 with
  | nil => rfl
  | cons o rest ih =>
    cases o with
    | none => simpa [firstSome] using ih
    | some e => rfl

theorem firstSome_eq_none_iff (l : List (Option Error)) :
    firstSome l = none ↔ ∀ c ∈ l, c = none := by
  induction l with
  | nil => simp [firstSome]
  | cons o rest ih =>
    cases o with
    | none => simp [firstSome, ih]
    | some e => simp [firstSome]

theorem check_ebb_args_eq (f : Function) (ebb : Ebb) (l : List Value) :
    check_ebb_args f ebb l =
      errExcept (firstSome (l.map (arg_origin_one f ebb))) := by
  induction l with
  | nil => rfl
  | cons a rest ih =>
    simp only [check_ebb_args, List.map_cons, arg_origin_one]
    cases h : f.value_def a with
    | Arg arg_ebb idx =>
      by_cases hne : ebb ≠ arg_ebb
      · simp [hne, firstSome, errExcept]
      · simp [hne, firstSome, ih]
    | Result i idx => simp [firstSome, errExcept]
    | Alias v => simp [firstSome, errExcept]

theorem ebb_integrity_eq (f : Function) (ebb : Ebb) (inst : Inst) :
    ebb_integrity f ebb inst =
      errExcept (firstSome
        [terminator_placement_check f ebb inst,
         ebb_closure_check f ebb inst,
         containment_check f ebb inst,
         argument_origin_check f ebb]) := by
  simp only [ebb_integrity, terminator_placement_check, ebb_closure_check,
    containment_check, argument_origin_check]
  split_ifs with h1 h2 h3 <;>
    simp [firstSome, errExcept, check_ebb_args_eq, argument_origin_check,
      firstSome_singleton]

theorem verify_values_eq (f : Function) (inst : Inst) (l : List Value) :
    verify_values f inst l =
      errExcept (firstSome (l.map (value_check f inst))) := by
  induction l with
  | nil => rfl
  | cons v rest ih =>
    simp only [verify_values, verify_value, value_check, List.map_cons]
    by_cases h : f.value_is_valid v = true
    · simpa [h, firstSome, except_bind_ok] using ih
    · simp [h, firstSome, errExcept, except_bind_err]

theorem verify_payload_refs_eq (f : Function) (inst : Inst) :
    verify_payload_refs f inst =
      errExcept (firstSome (payload_ref_checks f inst)) := by
  unfold verify_payload_refs payload_ref_checks
  cases h : f.dfg_data inst <;>
    simp only [verify_value_list, verify_ebb, verify_jump_table,
      verify_func_ref, verify_sig_ref] <;>
    (try split_ifs) <;>
    simp_all [firstSome, errExcept, except_bind_err, except_bind_ok]

theorem verify_entity_references_eq (f : Function) (inst : Inst) :
    verify_entity_references f inst =
      errExcept (entity_reference_check f inst) := by
  unfold verify_entity_references entity_reference_check
  rw [List.append_assoc, errExcept_append, errExcept_append,
    ← verify_values_eq, ← verify_values_eq, ← verify_payload_refs_eq]

theorem instruction_integrity_eq (f : Function) (inst : Inst) :
    instruction_integrity f inst =
      errExcept (firstSome
        [format_check f inst,
         result_count_check f inst,
         entity_reference_check f inst]) := by
  simp only [instruction_integrity, format_check, result_count_check]
  split_ifs with h1 h2 h3 h4 <;>
    simp [firstSome, errExcept, verify_entity_references_eq,
      firstSome_singleton]

theorem run_insts_eq (f : Function) (ebb : Ebb) (l : List Inst) :
    run_insts f ebb l =
      errExcept (firstSome (l.flatMap fun inst => ebb_inst_checks f ebb inst)) := by
  induction l with
  | nil => rfl
  | cons inst rest ih =>
    have hsplit :
        ((inst :: rest).flatMap fun i => ebb_inst_checks f ebb i) =
          ebb_inst_checks f ebb inst ++
            (rest.flatMap fun i => ebb_inst_checks f ebb i) := by
      simp
    rw [hsplit, errExcept_append]
    have hpair : ebb_inst_checks f ebb inst =
        [terminator_placement_check f ebb inst, ebb_closure_check f ebb inst,
         containment_check f ebb inst, argument_origin_check f ebb] ++
        [format_check f inst, result_count_check f inst,
         entity_reference_check f inst] := by
      simp [ebb_inst_checks]
    rw [hpair, errExcept_append, ← ebb_integrity_eq, ← instruction_integrity_eq,
      ← ih]
    simp only [run_insts]
    cases ebb_integrity f ebb inst <;>
      cases instruction_integrity f inst <;>
      simp [except_bind_err, except_bind_ok]

theorem run_ebbs_eq (f : Function) (l : List Ebb) :
    run_ebbs f l =
      errExcept (firstSome (l.flatMap fun ebb =>
        (f.layout.ebb_insts ebb).flatMap fun inst => ebb_inst_checks f ebb inst)) := by
  induction l with
  | nil => rfl
  | cons ebb rest ih =>
    have hsplit :
        ((ebb :: rest).flatMap fun e =>
            (f.layout.ebb_insts e).flatMap fun i => ebb_inst_checks f e i) =
          ((f.layout.ebb_insts ebb).flatMap fun i => ebb_inst_checks f ebb i) ++
            (rest.flatMap fun e =>
              (f.layout.ebb_insts e).flatMap fun i => ebb_inst_checks f e i) := by
      simp
    rw [hsplit, errExcept_append, ← run_insts_eq, ← ih]
    rfl

theorem verify_function_eq_checkList (f : Function) :
    verify_function f = errExcept (firstSome (checkList f)) := by
  simpa [verify_function, run, checkList] using run_ebbs_eq f f.layout.ebbs

/-! ### Further helper lemmas about the check list -/

theorem firstSome_mem {l : List (Option Error)} {e : Error}
    (h : firstSome l = some e) : some e ∈ l := by
  induction l with
  | nil => simp [firstSome] at h
  | cons o rest ih =>
    cases o with
    | none => simp [firstSome] at h; simp [ih h]
    | some x => simp [firstSome] at h; simp [h]

theorem verifier_errors_of_check_failure (f : Function) {ebb : Ebb}
    {inst : Inst} (hebb : ebb ∈ f.layout.ebbs)
    (hinst : inst ∈ f.layout.ebb_insts ebb) {c : Option Error}
    (hc : c ∈ ebb_inst_checks f ebb inst) {e0 : Error} (hsome : c = some e0) :
    ∃ e, verify_function f = .error e := by
  have hmem : c ∈ checkList f := by
    simp only [checkList, List.mem_flatMap]
    exact ⟨ebb, hebb, inst, hinst, hc⟩
  have hne : firstSome (checkList f) ≠ none := by
    intro hnone
    have := (firstSome_eq_none_iff _).mp hnone c hmem
    simp [hsome] at this
  cases h : firstSome (checkList f) with
  | none => exact absurd h hne
  | some e => exact ⟨e, by rw [verify_function_eq_checkList, h]; rfl⟩

theorem checks_pass_of_verify_ok {f : Function}
    (hok : verify_function f = .ok ()) :
    ∀ ebb ∈ f.layout.ebbs, ∀ inst ∈ f.layout.ebb_insts ebb,
      ebb_integrity f ebb inst = .ok () ∧
      instruction_integrity f inst = .ok () := by
  intro ebb hebb inst hinst
  have hall : ∀ c ∈ checkList f, c = none := by
    rw [verify_function_eq_checkList] at hok
    rcases h : firstSome (checkList f) with _ | e
    · exact (firstSome_eq_none_iff _).mp h
    · rw [h] at hok; simp [errExcept] at hok
  have hsub : ∀ c ∈ ebb_inst_checks f ebb inst, c = none := by
    intro c hc
    refine hall c ?_
    simp only [checkList, List.mem_flatMap]
    exact ⟨ebb, hebb, inst, hinst, hc⟩
  constructor
  · rw [ebb_integrity_eq]
    have h1 := hsub _ (by simp [ebb_inst_checks] :
      terminator_placement_check f ebb inst ∈ ebb_inst_checks f ebb inst)
    have h2 := hsub _ (by simp [ebb_inst_checks] :
      ebb_closure_check f ebb inst ∈ ebb_inst_checks f ebb inst)
    have h3 := hsub _ (by simp [ebb_inst_checks] :
      containment_check f ebb inst ∈ ebb_inst_checks f ebb inst)
    have h4 := hsub _ (by simp [ebb_inst_checks] :
      argument_origin_check f ebb ∈ ebb_inst_checks f ebb inst)
    rw [h1, h2, h3, h4]; rfl
  · rw [instruction_integrity_eq]
    have h5 := hsub _ (by simp [ebb_inst_checks] :
      format_check f inst ∈ ebb_inst_checks f ebb inst)
    have h6 := hsub _ (by simp [ebb_inst_checks] :
      result_count_check f inst ∈ ebb_inst_checks f ebb inst)
    have h7 := hsub _ (by simp [ebb_inst_checks] :
      entity_reference_check f inst ∈ ebb_inst_checks f ebb inst)
    rw [h5, h6, h7]; rfl

theorem term_before_end_msg_contains (ebb : Ebb) :
    msgContains (term_before_end_msg ebb)
      "a terminator instruction was encountered before the end of" := by
  refine ⟨"", " " ++ ebbName ebb, ?_⟩
  rw [String.empty_append, ← String.append_assoc]
  rfl

/-! ### Claim theorems for the verifier -/

/-- C1: `verify_function` returns `Ok(())` if and only if none of the
per-EBB and per-instruction checks fails; otherwise it returns the first
encountered error, where the encounter order is: EBBs in layout order,
within each EBB its instructions in program order, and for each instruction
the four ebb-integrity checks (terminator placement, EBB closure,
containment, argument origin) before the three instruction-integrity checks
(format match, result count, entity references). -/
theorem C1_first_error_in_encounter_order (f : Function) :
    verify_function f = errExcept (firstSome (checkList f)) ∧
    (verify_function f = .ok () ↔ ∀ c ∈ checkList f, c = none) ∧
    ∀ e, verify_function f = .error e ↔ firstSome (checkList f) = some e := by
  have h1 := verify_function_eq_checkList f
  refine ⟨h1, ?_, ?_⟩
  · rw [h1, ← firstSome_eq_none_iff]
    cases firstSome (checkList f) <;> simp [errExcept]
  · intro e
    rw [h1]
    cases firstSome (checkList f) <;> simp [errExcept]

/-- C2: a terminator that is not the last instruction of its EBB fails the
verifier's ebb-integrity check with an error at the instruction whose
message contains "a terminator instruction was encountered before the end
of"; a last instruction that is not a terminator fails it with an error at
the EBB whose message contains "does not end in a terminator instruction";
and when such a pair is in the layout, `verify_function` returns an error. -/
theorem C2_terminator_placement_and_closure (f : Function) (ebb : Ebb)
    (inst : Inst) :
    ((f.dfg_data inst).opcode.is_terminator = true →
      f.layout.last_inst ebb ≠ some inst →
      ebb_integrity f ebb inst =
        .error ⟨.inst inst, term_before_end_msg ebb⟩ ∧
      msgContains (term_before_end_msg ebb)
        "a terminator instruction was encountered before the end of") ∧
    (f.layout.last_inst ebb = some inst →
      (f.dfg_data inst).opcode.is_terminator = false →
      ebb_integrity f ebb inst = .error ⟨.ebb ebb, no_terminator_msg⟩ ∧
      msgContains no_terminator_msg
        "does not end in a terminator instruction") ∧
    (ebb ∈ f.layout.ebbs → inst ∈ f.layout.ebb_insts ebb →
      ebb_integrity f ebb inst ≠ .ok () →
      ∃ e, verify_function f = .error e) := by
  refine ⟨?_, ?_, ?_⟩
  · intro ht hl
    refine ⟨?_, term_before_end_msg_contains ebb⟩
    simp [ebb_integrity, ht, hl]
  · intro hl ht
    refine ⟨?_, ⟨"block ", "!", rfl⟩⟩
    simp [ebb_integrity, hl, ht]
  · intro hebb hinst hbad
    rw [ebb_integrity_eq] at hbad
    rcases h : firstSome
        [terminator_placement_check f ebb inst, ebb_closure_check f ebb inst,
         containment_check f ebb inst, argument_origin_check f ebb] with _ | e0
    · rw [h] at hbad; simp [errExcept] at hbad
    · have hmem := firstSome_mem h
      have hc : some e0 ∈ ebb_inst_checks f ebb inst := by
        simp only [ebb_inst_checks]
        simp at hmem ⊢
        tauto
      exact verifier_errors_of_check_failure f hebb hinst hc rfl

/-- Witness for C2 on the concrete `[return, iconst]` EBB: the `return` at
position 0 triggers the terminator-placement error, the `iconst` in the last
slot triggers the closure error, and the whole verifier fails. -/
theorem C2_terminator_placement_and_closure_witness :
    ebb_integrity misplaced_term_func 0 0 =
      .error ⟨.inst 0, term_before_end_msg 0⟩ ∧
    ebb_integrity misplaced_term_func 0 1 =
      .error ⟨.ebb 0, no_terminator_msg⟩ ∧
    ∃ e, verify_function misplaced_term_func = .error e := by
  refine ⟨((C2_terminator_placement_and_closure misplaced_term_func 0 0).1
      (by decide) (by decide)).1,
    (((C2_terminator_placement_and_closure misplaced_term_func 0 1).2.1)
      (by decide) (by decide)).1,
    ((C2_terminator_placement_and_closure misplaced_term_func 0 0).2.2)
      (by decide) (by decide) (by decide)⟩

/-- C8: an instruction whose opcode's format differs from the structural
format of its payload fails the verifier's instruction check with an error
at the instruction whose message contains "instruction format"; in
particular, a Nullary payload carrying opcode `jump` appended to an EBB
makes `verify_function` return such an error. -/
theorem C8_format_mismatch (f : Function) (inst : Inst)
    (h : (f.dfg_data inst).opcode.format ≠ (f.dfg_data inst).format) :
    (instruction_integrity f inst = .error ⟨.inst inst, bad_format_msg⟩ ∧
      msgContains bad_format_msg "instruction format") ∧
    verify_function bad_format_func =
      .error ⟨.inst 0, bad_format_msg⟩ := by
  refine ⟨⟨?_, ⟨"instruction opcode doesn't match ", "", rfl⟩⟩, by decide⟩
  simp [instruction_integrity, h]

/-- Witness for C8 at the `bad_instruction_format` test function. -/
theorem C8_format_mismatch_witness :
    instruction_integrity bad_format_func 0 =
      .error ⟨.inst 0, bad_format_msg⟩ :=
  ((C8_format_mismatch bad_format_func 0 (by decide)).1).1

/-- C4: for an instruction whose format matches its opcode, the verifier's
result-count check computes `total = fixed_results + var_results` (the
length of the return-type list of the call signature, or 0): when `total`
is 0 it requires the first type to be VOID and otherwise errors at the
instruction; when `total` is positive it requires the number of materialised
results to equal `total` and otherwise errors at the instruction; when the
requirement holds it proceeds to the entity-reference checks. -/
theorem C4_result_count (f : Function) (inst : Inst)
    (hfmt : (f.dfg_data inst).opcode.format = (f.dfg_data inst).format) :
    (total_results f inst = 0 →
      ((f.dfg_data inst).first_type ≠ VOID →
        instruction_integrity f inst =
          .error ⟨.inst inst, null_return_msg (f.dfg_data inst).first_type⟩) ∧
      ((f.dfg_data inst).first_type = VOID →
        instruction_integrity f inst = verify_entity_references f inst)) ∧
    (0 < total_results f inst →
      ((f.inst_results inst).length ≠ total_results f inst →
        instruction_integrity f inst =
          .error ⟨.inst inst, result_count_msg (total_results f inst)
            (f.inst_results inst).length⟩) ∧
      ((f.inst_results inst).length = total_results f inst →
        instruction_integrity f inst = verify_entity_references f inst)) := by
  constructor
  · intro htot
    constructor
    · intro hty
      simp [instruction_integrity, hfmt, htot, hty]
    · intro hty
      simp [instruction_integrity, hfmt, htot, hty]
  · intro htot
    have htot0 : ¬ total_results f inst = 0 := by omega
    constructor
    · intro hcount
      simp [instruction_integrity, hfmt, htot0, hcount]
    · intro hcount
      simp [instruction_integrity, hfmt, htot0, hcount]

/-- Witness for C4: a Nullary instruction with a non-VOID first type errors,
a single-result Unary with no materialised results errors, and a Nullary
with VOID first type proceeds to the entity-reference checks. -/
theorem C4_result_count_witness :
    instruction_integrity count_func 0 =
      .error ⟨.inst 0, null_return_msg 1⟩ ∧
    instruction_integrity count_func 1 =
      .error ⟨.inst 1, result_count_msg 1 0⟩ ∧
    instruction_integrity count_func 2 =
      verify_entity_references count_func 2 := by
  refine ⟨?_, ?_, ?_⟩
  · exact ((C4_result_count count_func 0 (by decide)).1 (by decide)).1
      (by decide)
  · exact ((C4_result_count count_func 1 (by decide)).2 (by decide)).1
      (by decide)
  · exact ((C4_result_count count_func 2 (by decide)).1 (by decide)).2
      (by decide)

/-- Counterexample for C3: a function whose layout holds one EBB with no
instructions at all passes the verifier, yet that EBB contains no terminator
(and is empty), so P1 as stated fails. -/
theorem C3_counterexample :
    verify_function empty_ebb_func = .ok () ∧ ¬ P1 empty_ebb_func := by
  refine ⟨by decide, ?_⟩
  intro h
  rcases h 0 (by simp [empty_ebb_func, base_func]) with ⟨hcount, -⟩
  simp [empty_ebb_func, base_func] at hcount

/-- C3 as amended: on a function the verifier accepts (with the layout's
structural guarantee that no instruction appears twice in an EBB's
sequence), every EBB of the layout **that contains at least one
instruction** has exactly one terminator, and it is `last_inst(E)`. -/
theorem C3_amended_terminator_invariant (f : Function)
    (hok : verify_function f = .ok ())
    (hnd : ∀ ebb ∈ f.layout.ebbs, (f.layout.ebb_insts ebb).Nodup) :
    ∀ ebb ∈ f.layout.ebbs, f.layout.ebb_insts ebb ≠ [] →
      (f.layout.ebb_insts ebb).countP
          (fun i => (f.dfg_data i).opcode.is_terminator) = 1 ∧
      ∃ i, f.layout.last_inst ebb = some i ∧
        (f.dfg_data i).opcode.is_terminator = true := by
  intro ebb hebb hne
  have hpass := checks_pass_of_verify_ok hok ebb hebb
  have hiff : ∀ inst ∈ f.layout.ebb_insts ebb,
      ((f.dfg_data inst).opcode.is_terminator = true ↔
        f.layout.last_inst ebb = some inst) := by
    intro inst hinst
    have h := (hpass inst hinst).1
    by_cases ht : (f.dfg_data inst).opcode.is_terminator = true <;>
      by_cases hl : f.layout.last_inst ebb = some inst <;>
      simp [ebb_integrity, ht, hl] at h ⊢
  have hlast : f.layout.last_inst ebb =
      some ((f.layout.ebb_insts ebb).getLast hne) := by
    simp [Layout.last_inst, List.getLast?_eq_getLast _ hne]
  have hmemlast := List.getLast_mem hne
  refine ⟨?_, ⟨(f.layout.ebb_insts ebb).getLast hne, hlast,
    (hiff _ hmemlast).mpr hlast⟩⟩
  have hcongr : ∀ i ∈ f.layout.ebb_insts ebb,
      ((f.dfg_data i).opcode.is_terminator = true ↔
        (i == (f.layout.ebb_insts ebb).getLast hne) = true) := by
    intro i hi
    have := hiff i hi
    rw [hlast] at this
    simp only [Option.some_inj] at this
    rw [beq_iff_eq]
    exact this.trans eq_comm
  rw [List.countP_congr hcongr]
  have := List.count_eq_one_of_mem (hnd ebb hebb) hmemlast
  simpa [List.count] using this

/-- Witness for the amended C3 at a function the verifier accepts. -/
theorem C3_amended_terminator_invariant_witness :
    (good_func.layout.ebb_insts 0).countP
        (fun i => (good_func.dfg_data i).opcode.is_terminator) = 1 ∧
    ∃ i, good_func.layout.last_inst 0 = some i ∧
      (good_func.dfg_data i).opcode.is_terminator = true :=
  C3_amended_terminator_invariant good_func (by decide) (by decide) 0
    (by decide) (by decide)

theorem flatMap_congr_mem {α β : Type} (l : List α) (F G : α → List β)
    (h : ∀ a ∈ l, F a = G a) : l.flatMap F = l.flatMap G := by
  induction l with
  | nil => rfl
  | cons a rest ih =>
    simp only [List.flatMap_cons]
    rw [h a (by simp), ih fun x hx => h x (by simp [hx])]

theorem ebb_inst_checks_congr (f g : Function) (ebb : Ebb) (inst : Inst)
    (hinsts : f.layout.ebb_insts ebb = g.layout.ebb_insts ebb)
    (hd : f.dfg_data inst = g.dfg_data inst)
    (hi : f.layout.inst_ebb inst = g.layout.inst_ebb inst)
    (hr : f.inst_results inst = g.inst_results inst)
    (ha : f.ebb_args ebb = g.ebb_args ebb)
    (hvd : ∀ a ∈ f.ebb_args ebb, f.value_def a = g.value_def a)
    (hsig : f.signatures = g.signatures)
    (hef : f.ext_funcs = g.ext_funcs)
    (hpool : f.value_pool = g.value_pool)
    (hvc : f.value_count = g.value_count)
    (hec : f.ebb_count = g.ebb_count)
    (hjt : f.jump_table_count = g.jump_table_count) :
    ebb_inst_checks f ebb inst = ebb_inst_checks g ebb inst := by
  have hl : f.layout.last_inst ebb = g.layout.last_inst ebb := by
    unfold Layout.last_inst
    rw [hinsts]
  have harg : argument_origin_check f ebb = argument_origin_check g ebb := by
    unfold argument_origin_check
    rw [← ha]
    congr 1
    apply List.map_congr_left
    intro a haa
    unfold arg_origin_one
    rw [hvd a haa]
  have hcs : f.call_signature inst = g.call_signature inst := by
    unfold Function.call_signature
    rw [hd, hef]
  have htot : total_results f inst = total_results g inst := by
    unfold total_results var_results
    rw [hd, hcs, hsig]
  have herc : entity_reference_check f inst =
      entity_reference_check g inst := by
    unfold entity_reference_check payload_ref_checks value_check
      Function.value_is_valid Function.ebb_is_valid ValueList.is_valid
    rw [hd, hr, hpool, hvc, hec, hjt, hef, hsig]
  unfold ebb_inst_checks terminator_placement_check ebb_closure_check
    containment_check format_check result_count_check
  rw [hd, hi, hl, harg, htot, hr, herc]

/-- C10: the result of `verify_function` depends only on the EBBs present in
the layout and the instructions placed in them: two functions whose layouts
agree, whose data, results, containment and argument information agree on
every laid-out EBB and instruction, and whose entity-validity tables are
identical, verify to the same result — instruction data and EBB data outside
the layout are never examined. -/
theorem C10_verdict_depends_only_on_layout (f g : Function)
    (hebbs : f.layout.ebbs = g.layout.ebbs)
    (hinsts : ∀ ebb ∈ f.layout.ebbs,
      f.layout.ebb_insts ebb = g.layout.ebb_insts ebb)
    (hdata : ∀ ebb ∈ f.layout.ebbs, ∀ inst ∈ f.layout.ebb_insts ebb,
      f.dfg_data inst = g.dfg_data inst)
    (hie : ∀ ebb ∈ f.layout.ebbs, ∀ inst ∈ f.layout.ebb_insts ebb,
      f.layout.inst_ebb inst = g.layout.inst_ebb inst)
    (hres : ∀ ebb ∈ f.layout.ebbs, ∀ inst ∈ f.layout.ebb_insts ebb,
      f.inst_results inst = g.inst_results inst)
    (hargs : ∀ ebb ∈ f.layout.ebbs, f.ebb_args ebb = g.ebb_args ebb)
    (hvd : ∀ ebb ∈ f.layout.ebbs, ∀ a ∈ f.ebb_args ebb,
      f.value_def a = g.value_def a)
    (hsig : f.signatures = g.signatures)
    (hef : f.ext_funcs = g.ext_funcs)
    (hpool : f.value_pool = g.value_pool)
    (hvc : f.value_count = g.value_count)
    (hec : f.ebb_count = g.ebb_count)
    (hjt : f.jump_table_count = g.jump_table_count) :
    verify_function f = verify_function g := by
  rw [verify_function_eq_checkList, verify_function_eq_checkList]
  have hcl : checkList f = checkList g := by
    unfold checkList
    rw [← hebbs]
    apply flatMap_congr_mem
    intro ebb hebb
    rw [← hinsts ebb hebb]
    apply flatMap_congr_mem
    intro inst hinst
    exact ebb_inst_checks_congr f g ebb inst (hinsts ebb hebb)
      (hdata ebb hebb inst hinst) (hie ebb hebb inst hinst)
      (hres ebb hebb inst hinst) (hargs ebb hebb) (hvd ebb hebb)
      hsig hef hpool hvc hec hjt
  rw [hcl]

/-- Witness for C10: changing the data of an instruction that was created
but never placed in the layout does not change the verifier's verdict. -/
theorem C10_verdict_depends_only_on_layout_witness :
    verify_function good_func = verify_function good_func_with_orphan :=
  C10_verdict_depends_only_on_layout good_func good_func_with_orphan
    (by decide) (by decide) (by decide) (by decide) (by decide) (by decide)
    (by decide) (by decide) (by decide) (by decide) (by decide) (by decide)
    (by decide)

end Cton

namespace GV

/-! ### Claim theorems for the global-value legalization pass -/

/-- C5: expanding a `global_value` instruction whose global is
`IAddImm { base, offset: k }` with `base` a `VMContext` global replaces the
instruction in place with `iadd_imm(special_param(VMContext), k)`; the
layout (hence the instruction's slot), the result values (hence
`first_result`), the fresh-handle counters and every other instruction's
data are unchanged, and the instruction is no longer a `global_value`, so no
additional `global_value` instruction has appeared. -/
theorem C5_iadd_imm_vmctx_base (func : Function) (isa : TargetIsa)
    (inst : Inst) (op : Opcode) (ty0 ty : Ty) (gv base : GlobalValue)
    (k : Int) (v : Value)
    (hdata : func.inst_data inst = .UnaryGlobalValue op ty0 gv)
    (hgv : func.global_values[gv]? = some (.IAddImm base k ty))
    (hbase : func.global_values[base]? = some .VMContext)
    (hvm : func.special_vmctx = some v) :
    expand_global_value inst func isa =
      .ok { func with
        inst_data := updFn func.inst_data inst (.BinaryImm .IaddImm v k) } ∧
    ∀ gres, expand_global_value inst func isa = .ok gres →
      gres.layout = func.layout ∧
      gres.first_result inst = func.first_result inst ∧
      gres.next_inst = func.next_inst ∧
      (∀ j, j ≠ inst → gres.inst_data j = func.inst_data j) ∧
      (gres.inst_data inst).is_global_value = false := by
  have heq : expand_global_value inst func isa =
      .ok { func with
        inst_data := updFn func.inst_data inst (.BinaryImm .IaddImm v k) } := by
    simp [expand_global_value, hdata, hgv, iadd_imm_addr, hbase, hvm,
      replace_data]
  refine ⟨heq, ?_⟩
  intro gres hres
  rw [heq] at hres
  injection hres with h
  subst h
  refine ⟨rfl, rfl, rfl, ?_, ?_⟩
  · intro j hj
    simp [updFn, hj]
  · simp [updFn, InstructionData.is_global_value]

/-- Witness for C5: expanding `global_value gv1` in the concrete function
(where `gv1 = IAddImm { base: gv0 = VMContext, offset: 16 }`). -/
theorem C5_iadd_imm_vmctx_base_witness :
    expand_global_value 0 (gfunc 1) isa64 =
      .ok { gfunc 1 with
        inst_data := updFn (gfunc 1).inst_data 0 (.BinaryImm .IaddImm 0 16) } :=
  (C5_iadd_imm_vmctx_base (gfunc 1) isa64 0 .GlobalValueOp 8 8 1 0 16 0
    (by decide) (by decide) (by decide) (by decide)).1

/-- C6: expanding a `global_value` instruction whose global is `VMContext`
makes the instruction's former first result a transparent alias of
`special_param(VMContext)`, removes all result values from the instruction,
and removes the instruction from the layout, so `inst_ebb` is `none`
afterwards. -/
theorem C6_vmctx_alias_and_removal (func : Function) (isa : TargetIsa)
    (inst : Inst) (op : Opcode) (ty0 : Ty) (gv : GlobalValue) (v r : Value)
    (rs : List Value)
    (hdata : func.inst_data inst = .UnaryGlobalValue op ty0 gv)
    (hgv : func.global_values[gv]? = some .VMContext)
    (hvm : func.special_vmctx = some v)
    (hres : func.inst_results inst = r :: rs)
    (hcount : ∀ p ∈ func.layout, p.2.count inst ≤ 1) :
    expand_global_value inst func isa =
      .ok { func with
        inst_results := updFn func.inst_results inst []
        value_aliases := updFn func.value_aliases r (some v)
        layout := func.layout.map fun p => (p.1, p.2.erase inst) } ∧
    ∀ gres, expand_global_value inst func isa = .ok gres →
      gres.value_aliases r = some v ∧
      gres.inst_results inst = [] ∧
      gres.inst_ebb inst = none := by
  have heq : expand_global_value inst func isa =
      .ok { func with
        inst_results := updFn func.inst_results inst []
        value_aliases := updFn func.value_aliases r (some v)
        layout := func.layout.map fun p => (p.1, p.2.erase inst) } := by
    simp [expand_global_value, hdata, hgv, vmctx_addr, hvm,
      Function.first_result, hres]
  refine ⟨heq, ?_⟩
  intro gres hres2
  rw [heq] at hres2
  injection hres2 with h
  subst h
  refine ⟨by simp [updFn], by simp [updFn], ?_⟩
  simp only [Function.inst_ebb]
  rw [Option.map_eq_none']
  rw [List.find?_eq_none]
  intro p hp
  simp only [List.mem_map] at hp
  obtain ⟨q, hq, rfl⟩ := hp
  have hcq := hcount q hq
  have hnotmem : inst ∉ q.2.erase inst := by
    have := List.count_erase_self inst q.2
    intro hmem
    have hpos := List.count_pos_iff.mpr hmem
    omega
  simpa using hnotmem

/-- Witness for C6: expanding `global_value gv0` (a `VMContext` global) in
the concrete function aliases `v1` to the vmctx parameter `v0`, clears the
results, and unlinks the instruction from the layout. -/
theorem C6_vmctx_alias_and_removal_witness :
    ∃ gres, expand_global_value 0 (gfunc 0) isa64 = .ok gres ∧
      gres.value_aliases 1 = some 0 ∧
      gres.inst_results 0 = [] ∧
      gres.inst_ebb 0 = none := by
  have h := C6_vmctx_alias_and_removal (gfunc 0) isa64 0 .GlobalValueOp 8 0
    0 1 [] (by decide) (by decide) (by decide) (by decide) (by decide)
  exact ⟨_, h.1, h.2 _ h.1⟩

/-- C7: expanding a `global_value` instruction whose global is
`Load { base, offset, global_type }` replaces the instruction in place with
a load of `global_type` at `offset` whose memory flags have both *notrap*
and *aligned* set; the load's address operand is `special_param(VMContext)`
when `base` is a `VMContext` global, and otherwise is the fresh result of a
newly inserted `global_value` instruction of type `isa.pointer_type()`
referencing `base`, placed just before the instruction. -/
theorem C7_load_expansion (func : Function) (isa : TargetIsa) (inst : Inst)
    (op : Opcode) (ty0 gty : Ty) (gv base : GlobalValue) (off : Int)
    (hdata : func.inst_data inst = .UnaryGlobalValue op ty0 gv)
    (hgv : func.global_values[gv]? = some (.Load base off gty)) :
    (∀ v, func.global_values[base]? = some .VMContext →
      func.special_vmctx = some v →
      expand_global_value inst func isa =
        .ok { func with
          inst_data := updFn func.inst_data inst
            (.Load .LoadOp ⟨true, true⟩ gty v off) }) ∧
    (∀ g, func.global_values[base]? = some g → g ≠ .VMContext →
      expand_global_value inst func isa =
        .ok { func with
          inst_data := updFn
            (updFn func.inst_data func.next_inst
              (.UnaryGlobalValue .GlobalValueOp isa.pointer_type base))
            inst (.Load .LoadOp ⟨true, true⟩ gty func.next_value off)
          inst_results := updFn func.inst_results func.next_inst
            [func.next_value]
          layout := func.layout.map fun p =>
            (p.1, insert_before p.2 inst func.next_inst)
          next_inst := func.next_inst + 1
          next_value := func.next_value + 1 }) ∧
    MemFlags.new.set_notrap.set_aligned = ⟨true, true⟩ := by
  refine ⟨?_, ?_, rfl⟩
  · intro v hbase hvm
    simp [expand_global_value, hdata, hgv, load_addr, hbase, hvm,
      replace_data, MemFlags.new, MemFlags.set_notrap, MemFlags.set_aligned]
  · intro g hbase hne
    cases g with
    | VMContext => exact absurd rfl hne
    | IAddImm b o t =>
      simp [expand_global_value, hdata, hgv, load_addr, hbase,
        ins_global_value, replace_data, MemFlags.new, MemFlags.set_notrap,
        MemFlags.set_aligned]
    | Load b o t =>
      simp [expand_global_value, hdata, hgv, load_addr, hbase,
        ins_global_value, replace_data, MemFlags.new, MemFlags.set_notrap,
        MemFlags.set_aligned]
    | Symbol n =>
      simp [expand_global_value, hdata, hgv, load_addr, hbase,
        ins_global_value, replace_data, MemFlags.new, MemFlags.set_notrap,
        MemFlags.set_aligned]

/-- Witness for C7: both load cases on the concrete function — `gv2` loads
through the `VMContext` base directly, `gv3` loads through a freshly
inserted `global_value gv1` of the ISA pointer type. -/
theorem C7_load_expansion_witness :
    expand_global_value 0 (gfunc 2) isa64 =
      .ok { gfunc 2 with
        inst_data := updFn (gfunc 2).inst_data 0
          (.Load .LoadOp ⟨true, true⟩ 8 0 8) } ∧
    expand_global_value 0 (gfunc 3) isa64 =
      .ok { gfunc 3 with
        inst_data := updFn
          (updFn (gfunc 3).inst_data 1 (.UnaryGlobalValue .GlobalValueOp 8 1))
          0 (.Load .LoadOp ⟨true, true⟩ 8 2 4)
        inst_results := updFn (gfunc 3).inst_results 1 [2]
        layout := (gfunc 3).layout.map fun p =>
          (p.1, insert_before p.2 0 1)
        next_inst := 2
        next_value := 3 } :=
  ⟨(C7_load_expansion (gfunc 2) isa64 0 .GlobalValueOp 8 8 2 0 8
      (by decide) (by decide)).1 0 (by decide) (by decide),
   (C7_load_expansion (gfunc 3) isa64 0 .GlobalValueOp 8 8 3 1 4
      (by decide) (by decide)).2.1 (.IAddImm 0 16 8) (by decide) (by decide)⟩

/-- C9: calling `expand_global_value` on an instruction whose payload is not
of the `UnaryGlobalValue` format aborts with the diagnostic
`Wanted global_value:` carrying the offending instruction; no updated
function is produced. -/
theorem C9_panics_on_non_global_value (func : Function) (isa : TargetIsa)
    (inst : Inst)
    (h : (func.inst_data inst).is_unary_global_value = false) :
    expand_global_value inst func isa =
      .error (.wanted_global_value inst (func.inst_data inst)) := by
  cases hd : func.inst_data inst with
  | UnaryGlobalValue op ty gvv =>
    rw [hd] at h
    simp [InstructionData.is_unary_global_value] at h
  | BinaryImm op a i => simp [expand_global_value, hd]
  | Load op fl t a o => simp [expand_global_value, hd]

/-- Witness for C9: instruction 1 of the concrete function carries a
`BinaryImm` payload, so expansion aborts with the diagnostic naming it. -/
theorem C9_panics_on_non_global_value_witness :
    expand_global_value 1 (gfunc 0) isa64 =
      .error (.wanted_global_value 1 (.BinaryImm .IaddImm 0 0)) :=
  C9_panics_on_non_global_value (gfunc 0) isa64 1 (by decide)

end GV
